import Mathlib

/-!
Verification development for `microshell.c` (mrfalcone/microshell).

This file contains a shallow embedding of the shell's core, translated
function by function from `src/microshell.c`:

* `processArgs` (the Lexer, C lines 119-232) is embedded as the structurally
  recursive `lexGo`/`lexStep` over a `List Char` (the C string; the end of the
  list plays the role of the terminating NUL byte).
* `buildCommandChains` (the Chain Builder, C lines 244-362) is embedded as the
  fuel-indexed loop `buildGo` whose body `buildStep` mirrors one iteration of
  the C do-while loop.  File descriptors obtained from `open(2)` are abstracted
  by an oracle `openF : List Char → OpenMode → Int` (negative = failure, as in C).
* `executeCommandChain` (the Chain Executor, C lines 372-419) is embedded as
  `execChainGo`; the exit status of `executeSingleCommand` for a node is
  abstracted by an oracle `exec : Command → Int`, and the (uninitialized)
  local accumulator `allStatus` is an explicit parameter.
* `executePipedCommands` (the Pipeline Launcher, C lines 482-533) is embedded
  as `execPiped`, with `exit`/`waitpid`/`WEXITSTATUS` modelled arithmetically
  by `exitRaw` and `wexitstatus`.

Linked `next` pointers are represented structurally: a chain is a `List Command`
and a node's `next` is the following list element (the chain's last node has a
null `next`).
-/

/-! ## Stop reasons (C lines 32-42) -/

def SR_DONE : Nat := 0
def SR_ERROR : Nat := 1
def SR_SEQ_CHAIN : Nat := 2
def SR_SEQ_AND : Nat := 3
def SR_SEQ_OR : Nat := 4
def SR_PIPE : Nat := 5
def SR_REDIRECT_IN : Nat := 6
def SR_REDIRECT_IN_HERE : Nat := 7
def SR_REDIRECT_OUT : Nat := 8
def SR_REDIRECT_OUT_APPEND : Nat := 9
def SR_BACKGROUND : Nat := 10

/-! ## Character classes (C lines 26-27) -/

def isWs (c : Char) : Prop := c = ' ' ∨ c = '\t' ∨ c = '\n'

instance (c : Char) : Decidable (isWs c) :=
  inferInstanceAs (Decidable (c = ' ' ∨ c = '\t' ∨ c = '\n'))

def isCtrl (c : Char) : Prop := c = ';' ∨ c = '&' ∨ c = '|' ∨ c = '<' ∨ c = '>'

instance (c : Char) : Decidable (isCtrl c) :=
  inferInstanceAs (Decidable (c = ';' ∨ c = '&' ∨ c = '|' ∨ c = '<' ∨ c = '>'))

/-- The NUL character; used where C stores `0` into `quoteChar`. -/
def nulChar : Char := Char.ofNat 0

/-! ## The Lexer: `processArgs` (C lines 119-232) -/

/-- Result of one `processArgs` call: number of input characters consumed
(the function's return value, which counts the character(s) that broke the
loop), the argument list written through `argBuffer`/`argList`, and the
`*stopReason` out-parameter. -/
structure LexOut where
  processed : Nat
  args : List (List Char)
  stop : Nat
deriving DecidableEq

/-- Mutable locals of `processArgs` that travel across loop iterations:
`escaped`, `quoted`, `quoteChar`, `curArg`.  `skipMode` records being inside
the inner whitespace-skip loop (C lines 163-166) that runs after an argument
was flushed. -/
structure LexSt where
  skipMode : Bool
  escaped : Bool
  quoted : Bool
  quoteChar : Char
  cur : List Char
deriving DecidableEq

/-- Initial lexer state (C lines 121-130). -/
def initSt : LexSt := ⟨false, false, false, nulChar, []⟩

/-- The control-operator classification chain of C lines 168-207, run on the
character after whitespace skipping.  `nxt` is the one-character lookahead
`*(c+1)` (`none` when the next byte is the terminating NUL).  Returns the stop
reason and the extra `++processed` for a matched two-character operator. -/
def classifyCtrl (ch : Char) (nxt : Option Char) : Nat × Nat :=
  if ch = ';' then (SR_SEQ_CHAIN, 0)
  else if ch = '|' ∧ nxt = some '|' then (SR_SEQ_OR, 1)
  else if ch = '|' then (SR_PIPE, 0)
  else if ch = '&' ∧ nxt = some '&' then (SR_SEQ_AND, 1)
  else if ch = '&' then (SR_BACKGROUND, 0)
  else if ch = '>' ∧ nxt = some '>' then (SR_REDIRECT_OUT_APPEND, 1)
  else if ch = '>' then (SR_REDIRECT_OUT, 0)
  else if ch = '<' ∧ nxt = some '<' then (SR_REDIRECT_IN_HERE, 1)
  else if ch = '<' then (SR_REDIRECT_IN, 0)
  else (SR_DONE, 0)

/-- One step of the lexer loop body (C lines 139-222) on the character `ch`,
with lookahead `nxt`.  Either the loop breaks with a stop reason (`stop`,
carrying the extra processed count of a two-character operator) or it
continues with an updated state (`cont`); the `++c; ++processed` at C lines
224-225 is accounted for by the caller `lexGo`. -/
inductive LexStep where
  | stop (extra : Nat) (args : List (List Char)) (sr : Nat)
  | cont (st : LexSt) (args : List (List Char))
deriving DecidableEq

def lexStep (ch : Char) (nxt : Option Char) (st : LexSt) (args : List (List Char)) : LexStep :=
  if ch = '\\' ∧ st.escaped = false then
    -- C lines 139-141
    .cont {st with escaped := true} args
  else if (ch = '\'' ∨ ch = '"') ∧ st.escaped = false then
    -- C lines 143-152; a quote character that neither opens nor closes the
    -- current region is silently discarded (no branch touches curArg)
    (if st.quoted = false then .cont {st with quoted := true, quoteChar := ch} args
     else if ch = st.quoteChar then .cont {st with quoted := false, quoteChar := nulChar} args
     else .cont st args)
  else if (isWs ch ∨ isCtrl ch) ∧ (st.escaped = false ∧ st.quoted = false) then
    -- C lines 154-217
    (if st.cur ≠ [] then
      -- flush the pending argument (C lines 156-161), then the whitespace-skip
      -- loop; when `ch` is itself a control character the skip loop runs zero
      -- times and the operator is classified immediately
      (if isCtrl ch then
        .stop (classifyCtrl ch nxt).2 (args ++ [st.cur]) (classifyCtrl ch nxt).1
       else .cont ⟨true, false, false, nulChar, []⟩ (args ++ [st.cur]))
     else if isCtrl ch then
      -- C lines 213-216: control character with no pending argument characters
      .stop 0 args SR_ERROR
     else .cont st args)
  else
    -- C lines 219-222: copy the character, clear the escape flag
    .cont {st with escaped := false, cur := st.cur ++ [ch]} args

/-- The `while(1)` loop of `processArgs`: structural recursion over the input,
threading the state, the running `processed` count and the flushed arguments.
Reaching the end of the list is reaching the terminating NUL (C lines 134-137,
plus the final `++processed` of line 228).  In `skipMode` (inside the
whitespace-skip loop of C lines 163-166), a non-whitespace non-control
character is re-handled by the main loop body with a fresh argument state —
this is the `--c; --processed` backtrack of C lines 209-210. -/
def lexGo : List Char → LexSt → Nat → List (List Char) → LexOut
  | [], _, p, args => ⟨p + 1, args, SR_DONE⟩
  | ch :: rest, st, p, args =>
    if st.skipMode = true then
      (if isWs ch then lexGo rest st (p + 1) args
       else if isCtrl ch then
        ⟨p + (classifyCtrl ch rest.head?).2 + 1, args, (classifyCtrl ch rest.head?).1⟩
       else
        match lexStep ch rest.head? initSt args with
        | .stop extra args' sr => ⟨p + extra + 1, args', sr⟩
        | .cont st' args' => lexGo rest st' (p + 1) args')
    else
      match lexStep ch rest.head? st args with
      | .stop extra args' sr => ⟨p + extra + 1, args', sr⟩
      | .cont st' args' => lexGo rest st' (p + 1) args'

/-- `processArgs` (C lines 119-232) on one command segment. -/
def processArgs (input : List Char) : LexOut := lexGo input initSt 0 []


/-! ## The data model: `command_t` (C lines 49-58)

The `next` pointer is represented structurally: a chain is a `List Command`
and a node's `next` is the element after it (the last node's `next` is null).
`fileno(stdin) = 0` and `fileno(stdout) = 1` are the default descriptors. -/

structure Command where
  argList : List (List Char)
  fdIn : Int
  fdOut : Int
  stopOnFailure : Bool
  stopOnSuccess : Bool
  piped : Bool
  background : Bool
deriving DecidableEq

/-! ## The Chain Builder: `buildCommandChains` (C lines 244-362) -/

/-- The three open-flag combinations used by the builder (C lines 334, 339,
344); the concrete numeric `O_*` values are irrelevant to the logic and are
abstracted into this closed enumeration handed to the `open` oracle. -/
inductive OpenMode where
  | rdonly
  | wtrunc
  | wappend
deriving DecidableEq

/-- The pending redirection target: C's `getFd` pointer aimed at the current
command's `fdIn` (`toIn = true`) or `fdOut`, plus the `oflags` chosen when the
redirect operator was seen. -/
structure GetFdT where
  toIn : Bool
  oflags : OpenMode
deriving DecidableEq

/-- Loop state of `buildCommandChains`.  `cur` holds the nodes of the chain
currently being linked, most recent first (so `cur.head?` is C's `com`);
`closed` holds the finished chains in order (so `chainCount = closed.length`);
`lastSet` is `lastCom != 0`; `commandCount` counts every node ever created. -/
structure BuildAcc where
  closed : List (List Command)
  cur : List Command
  lastSet : Bool
  getFd : Option GetFdT
  continueLast : Bool
  commandCount : Nat
deriving DecidableEq

/-- Result of a whole `buildCommandChains` run: the closed (counted) chains,
the nodes of a chain left unclosed when the loop exited (never counted in
`chainCount`, hence never executed by `main`), and the total node count. -/
structure BuildOut where
  closed : List (List Command)
  dangling : List Command
  commandCount : Nat
deriving DecidableEq

/-- `*getFd = fd` — write the opened descriptor through C's `getFd` pointer. -/
def setFd (g : GetFdT) (fd : Int) (c : Command) : Command :=
  if g.toIn then {c with fdIn := fd} else {c with fdOut := fd}

def outOf (acc : BuildAcc) : BuildOut :=
  ⟨acc.closed, acc.cur.reverse, acc.commandCount⟩

/-- The `switch(stopReason)` of C lines 315-356.  Flag updates target `com`,
the head of `cur`.  `SR_SEQ_CHAIN` and every reason without an explicit case
(`SR_DONE`, `SR_ERROR`, and notably `SR_REDIRECT_IN_HERE`) fall into the
default: `++chainCount; lastCom = 0`, i.e. the open chain is closed. -/
def applySwitch (stop : Nat) (acc : BuildAcc) : BuildAcc :=
  if stop = SR_SEQ_AND then
    {acc with cur := acc.cur.modifyHead (fun c => {c with stopOnFailure := true}),
              lastSet := true}
  else if stop = SR_SEQ_OR then
    {acc with cur := acc.cur.modifyHead (fun c => {c with stopOnSuccess := true}),
              lastSet := true}
  else if stop = SR_PIPE then
    {acc with cur := acc.cur.modifyHead (fun c => {c with piped := true, stopOnFailure := true}),
              lastSet := true}
  else if stop = SR_REDIRECT_IN then
    {acc with getFd := some ⟨true, .rdonly⟩}
  else if stop = SR_REDIRECT_OUT then
    {acc with getFd := some ⟨false, .wtrunc⟩}
  else if stop = SR_REDIRECT_OUT_APPEND then
    {acc with getFd := some ⟨false, .wappend⟩}
  else if stop = SR_BACKGROUND then
    {acc with continueLast := true,
              cur := acc.cur.modifyHead (fun c => {c with background := true})}
  else
    {acc with closed := acc.closed ++ [acc.cur.reverse], cur := [], lastSet := false}

/-- One iteration of the builder's do-while body: either the loop exits
(`stopReason == SR_DONE` at the `while` check) with the final output, or it
continues at the rest of the input with an updated state. -/
inductive BStep where
  | exit (o : BuildOut)
  | next (rem : List Char) (acc : BuildAcc)
deriving DecidableEq

def buildStep (openF : List Char → OpenMode → Int) (rem : List Char) (acc : BuildAcc) : BStep :=
  match acc.getFd with
  | some g =>
    -- C lines 259-279: the user wants to open a file for redirection
    let out := processArgs rem
    let rem' := rem.drop out.processed
    if out.stop = SR_ERROR ∨ out.args.length ≠ 1 then
      -- "Error reading filename for redirect.": continue with getFd still set
      (if out.stop = SR_DONE then .exit (outOf acc) else .next rem' acc)
    else
      -- `*getFd = open(filename, oflags, ...)` happens before the failure check
      let fd := openF (out.args.headD []) g.oflags
      let acc1 := {acc with cur := acc.cur.modifyHead (setFd g fd)}
      if fd < 0 then
        -- "Error opening file ... for redirect.": continue, getFd still set
        (if out.stop = SR_DONE then .exit (outOf acc1) else .next rem' acc1)
      else
        -- success: `getFd = 0`, then fall through to the switch
        let acc2 := applySwitch out.stop {acc1 with getFd := none}
        (if out.stop = SR_DONE then .exit (outOf acc2) else .next rem' acc2)
  | none =>
    -- C lines 281-313: the user wants to execute the next command
    let out := processArgs rem
    let rem' := rem.drop out.processed
    if out.stop = SR_ERROR ∧ acc.continueLast = false then
      -- "Unrecognized command input.": continue (SR_ERROR ≠ SR_DONE)
      .next rem' acc
    else if out.args = [] ∧ acc.continueLast = false then
      -- empty segment: continue
      (if out.stop = SR_DONE then .exit (outOf acc) else .next rem' acc)
    else
      let acc1 :=
        if acc.continueLast = false then
          -- create a node with default descriptors and flags (C lines 295-307);
          -- `lastCom->next = com` is the structural append to the open chain
          -- (when `lastCom` is null the node starts a fresh chain)
          {acc with cur := ⟨out.args, 0, 1, false, false, false, false⟩ ::
                            (if acc.lastSet then acc.cur else []),
                    commandCount := acc.commandCount + 1}
        else acc
      let acc2 := applySwitch out.stop {acc1 with continueLast := false}
      (if out.stop = SR_DONE then .exit (outOf acc2) else .next rem' acc2)

/-- The builder's do-while loop.  The fuel only bounds the iteration count;
since every iteration consumes at least one input character and an exhausted
input always stops with `SR_DONE`, fuel `input.length + 1` never runs out. -/
def buildGo (openF : List Char → OpenMode → Int) : Nat → List Char → BuildAcc → BuildOut
  | 0, _, acc => outOf acc
  | fuel + 1, rem, acc =>
    match buildStep openF rem acc with
    | .exit o => o
    | .next rem' acc' => buildGo openF fuel rem' acc'

def initAcc : BuildAcc := ⟨[], [], false, none, false, 0⟩

/-- `buildCommandChains` (C lines 244-362) over one input line. -/
def buildCommandChains (openF : List Char → OpenMode → Int) (input : List Char) : BuildOut :=
  buildGo openF (input.length + 1) input initAcc


/-! ## The Pipeline Launcher: `executePipedCommands` (C lines 482-533)

Process mechanics are modelled arithmetically: a child that calls `exit(code)`
produces the raw `waitpid` status `(code & 0xFF) << 8`, and `WEXITSTATUS(x)`
is `(x & 0xFF00) >> 8`.  The per-node status of `executeSingleCommand` is
abstracted by an oracle `exec : Command → Int` (its real value is always a
`WEXITSTATUS`, i.e. an integer in [0,255]). -/

/-- `WEXITSTATUS(status) = ((status) & 0xff00) >> 8` for a non-negative raw
wait status. -/
def wexitstatus (status : Int) : Int := status / 256 % 256

/-- Raw `waitpid` status of a child that terminated via `exit(code)`:
`(code & 0xFF) << 8`. -/
def exitRaw (code : Int) : Int := code % 256 * 256

/-- `executePipedCommands(left, right)` where `right :: rest` is the remaining
chain after `left` (an empty list is a null `right`).  Also returns, as an
observation, the list of nodes that were actually run (handed to
`executeSingleCommand`) in order. -/
def execPiped (exec : Command → Int) : Command → List Command → Int × List Command
  | left, [] => (exec left, [left])
  | left, right :: rest =>
    if left.piped then
      -- pidRight child: exit(executePipedCommands(right, right->next));
      -- parent: childExitStatus = WEXITSTATUS(raw right status)
      let sub := execPiped exec right rest
      let childExitStatus := wexitstatus (exitRaw sub.1)
      -- pidLeft child: exit(executeSingleCommand(left));
      -- parent: exitStatus = WEXITSTATUS(raw left status)
      let leftStatus := wexitstatus (exitRaw (exec left))
      -- C line 529: exitStatus += WEXITSTATUS(childExitStatus) — WEXITSTATUS is
      -- applied a second time to the already-extracted child status
      (leftStatus + wexitstatus childExitStatus, left :: sub.2)
    else
      -- `!(left->piped && right)`: last command of the pipeline, run directly
      (exec left, [left])

/-! ## The Chain Executor: `executeCommandChain` (C lines 372-419) -/

/-- Result of `executeCommandChain`: the returned `allStatus`, the
`*commandCount` out-parameter, and (as an observation) the nodes that were
actually executed, in order. -/
structure ChainRes where
  allStatus : Int
  count : Nat
  executed : List Command
deriving DecidableEq

/-- The `while(chain->piped){ ++(*commandCount); chain = chain->next; }` loop
(C lines 389-392): number of leading `piped` nodes and the remaining suffix
(which starts at the first non-piped node). -/
def skipPiped : List Command → Nat × List Command
  | [] => (0, [])
  | c :: rest => if c.piped then ((skipPiped rest).1 + 1, (skipPiped rest).2) else (0, c :: rest)

/-- Conditional logic of C lines 401-411 at the node `chain` now points to:
new `allStatus` and the truthiness of the `stopped` flag. -/
def applyFlags (node : Command) (status allStatus : Int) : Int × Bool :=
  if node.stopOnFailure then (allStatus + |status|, status ≠ 0)
  else if node.stopOnSuccess then (allStatus * status, status = 0)
  else (allStatus + status, false)

/-- The walk of C lines 379-416.  The guard `if(!commandCount)` at C lines
385-386 and 396-397 tests the out-parameter pointer `commandCount` — which is
never null — rather than `*commandCount`, so `allStatus = status` never runs
and `allStatus` keeps its previous value (initially the indeterminate content
of the uninitialized local, threaded here as the starting `s`).  Fuel only
bounds the loop; `chain.length + 1` never runs out since every iteration
consumes at least one node. -/
def execChainGo (exec : Command → Int) :
    Nat → List Command → Bool → Int → Nat → List Command → ChainRes
  | 0, _, _, s, n, ex => ⟨s, n, ex.reverse⟩
  | _ + 1, [], _, s, n, ex => ⟨s, n, ex.reverse⟩
  | fuel + 1, c :: rest, stopped, s, n, ex =>
    if stopped then
      -- short-circuited: nodes are still counted and traversed, not executed
      execChainGo exec fuel rest true s (n + 1) ex
    else if c.piped then
      let pr := execPiped exec c rest
      let sk := skipPiped (c :: rest)
      match sk.2 with
      | [] =>
        -- every remaining node is piped: C would dereference the null `chain`
        -- after the skip loop; unreachable for chains produced by the builder
        ⟨s, n + sk.1, (pr.2.reverse ++ ex).reverse⟩
      | d :: rest' =>
        -- flags are applied at the node the skip loop stopped on (the
        -- pipeline's final, non-piped stage), with the pipeline's status
        let fl := applyFlags d pr.1 s
        execChainGo exec fuel rest' fl.2 fl.1 (n + sk.1 + 1) (pr.2.reverse ++ ex)
    else
      let fl := applyFlags c (exec c) s
      execChainGo exec fuel rest fl.2 fl.1 (n + 1) (c :: ex)

/-- `executeCommandChain` (C lines 372-419).  `allStatus0` is the value the
uninitialized local `allStatus` happens to hold on entry. -/
def executeCommandChain (exec : Command → Int) (allStatus0 : Int) (chain : List Command) :
    ChainRes :=
  execChainGo exec (chain.length + 1) chain false allStatus0 0 []

/-! ## Chain well-formedness: every piped node has a next node

`noDanglingPipe chain` says the chain's last node (the one whose `next` is
null) is not `piped` — equivalently, every `piped` node in the chain is
followed by another node. -/

def noDanglingPipe (l : List Command) : Bool := l.getLast?.all fun c => !c.piped

/-- The builder-side view: `cur` stores the open chain most recent node first,
so the node that would end the chain on close is `cur`'s head. -/
def headOkB : List Command → Bool
  | [] => true
  | c :: _ => !c.piped

/-- Invariant over the builder's loop state: every already-closed chain ends
in a non-piped node; whenever a redirection is pending or a background
continuation is active, the current node is not piped (its `piped` flag can
only be set by `SR_PIPE`, after which the next switch necessarily runs on a
freshly created node); and a pending redirection implies no background
continuation. -/
def InvP (acc : BuildAcc) : Prop :=
  (∀ ch ∈ acc.closed, noDanglingPipe ch = true) ∧
  (acc.getFd.isSome = true ∨ acc.continueLast = true → headOkB acc.cur = true) ∧
  (acc.getFd.isSome = true → acc.continueLast = false)

/-! ## Sanity checks (concrete runs of the embedded functions) -/

example : processArgs [] = ⟨1, [], SR_DONE⟩ := rfl
example : processArgs ['a', '\n'] = ⟨3, [['a']], SR_DONE⟩ := by decide
example : processArgs ['a', ' ', '|'] = ⟨3, [['a']], SR_PIPE⟩ := by decide
example : processArgs ['a', '&', '&', 'b'] = ⟨3, [['a']], SR_SEQ_AND⟩ := by decide
example : processArgs [';'] = ⟨1, [], SR_ERROR⟩ := by decide
example : processArgs ['a', 'b', 'c'] = ⟨4, [], SR_DONE⟩ := by decide

example :
    buildCommandChains (fun _ _ => -1) ['l', 's', '\n'] =
      ⟨[[⟨[['l', 's']], 0, 1, false, false, false, false⟩]], [], 1⟩ := by decide

example :
    buildCommandChains (fun _ _ => -1) ['a', ' ', '|'] =
      ⟨[], [⟨[['a']], 0, 1, true, false, true, false⟩], 1⟩ := by decide

example :
    buildCommandChains (fun _ _ => -1) ['a', ' ', '|', ' ', 'b', '\n'] =
      ⟨[[⟨[['a']], 0, 1, true, false, true, false⟩,
         ⟨[['b']], 0, 1, false, false, false, false⟩]], [], 2⟩ := by decide

example :
    buildCommandChains (fun _ _ => -1) ['a', ' ', ';', ' ', 'b', '\n'] =
      ⟨[[⟨[['a']], 0, 1, false, false, false, false⟩],
        [⟨[['b']], 0, 1, false, false, false, false⟩]], [], 2⟩ := by decide

example :
    executeCommandChain (fun _ => 0) 0
      [⟨[['a']], 0, 1, false, false, false, false⟩] =
    ⟨0, 1, [⟨[['a']], 0, 1, false, false, false, false⟩]⟩ := by decide

example :
    executeCommandChain (fun c => if c.piped then 1 else 2) 0
      [⟨[['a']], 0, 1, true, false, true, false⟩,
       ⟨[['b']], 0, 1, false, false, false, false⟩] =
    ⟨1, 2, [⟨[['a']], 0, 1, true, false, true, false⟩,
            ⟨[['b']], 0, 1, false, false, false, false⟩]⟩ := by decide


/-! ## Claim C1 — pipeline status

C line 524 already extracts `childExitStatus = WEXITSTATUS(...)`, an integer
in [0,255]; C line 529 then adds `WEXITSTATUS(childExitStatus)`, i.e.
`(childExitStatus & 0xff00) >> 8`, which is `0` for any value in [0,255].  So
the returned "sum" is only the left (first) stage's status, contradicting the
function's own comment ("Returns a sum of the exit status of each command in
the pipeline"). -/

/-- C1: for the two-stage pipeline `A | B` with individual exit statuses 1
and 2, `executePipedCommands` returns 1, not the claimed sum 3. -/
theorem c1_pipeline_status_not_sum :
    (execPiped (fun c => if c.piped then 1 else 2)
      ⟨[['a']], 0, 1, true, false, true, false⟩
      [⟨[['b']], 0, 1, false, false, false, false⟩]).1 = 1 ∧ (1 : Int) ≠ 1 + 2 := by
  decide

/-! ## Claim C2 — conditional short-circuit status

The guard `if(!commandCount)` (C lines 385, 396) tests the out-parameter
pointer, which is never null, so `allStatus = status` never executes and the
uninitialized local `allStatus` is the base of all accumulation — despite the
inline comment "if any has nonzero exit status, total status is nonzero". -/

/-- C2: for the chain `A && B` where A exits 1 and the uninitialized
accumulator happens to hold -1, the combined status is 0 even though A
failed; the short-circuit itself does work (B is traversed but not
executed). -/
theorem c2_chain_status_uninitialized :
    executeCommandChain (fun c => if c.stopOnFailure then 1 else 0) (-1)
      [⟨[['f']], 0, 1, true, false, false, false⟩,
       ⟨[['g']], 0, 1, false, false, false, false⟩] =
    ⟨0, 2, [⟨[['f']], 0, 1, true, false, false, false⟩]⟩ := by
  decide

/-! ## Claim C5 — `<<` in the Chain Builder

The `switch` of C lines 315-356 has no `case SR_REDIRECT_IN_HERE`, so the
heredoc stop reason falls into the `default` branch shared with
`SR_SEQ_CHAIN`: the chain is closed and counted, and no redirection-target
mode is entered. -/

/-- C5 counterexample: on input `a << b` the builder closes the chain at the
`<<` and then parses `b` as a fresh command in a second chain; no file is
opened (the open oracle would return 7, yet `fdIn` stays at the default 0)
— the claim says `<<` is handled exactly like `<`. -/
theorem c5_heredoc_counterexample :
    buildCommandChains (fun _ _ => 7) ['a', ' ', '<', '<', ' ', 'b', '\n'] =
      ⟨[[⟨[['a']], 0, 1, false, false, false, false⟩],
        [⟨[['b']], 0, 1, false, false, false, false⟩]], [], 2⟩ ∧
    (buildCommandChains (fun _ _ => 7) ['a', ' ', '<', '<', ' ', 'b', '\n']).closed.length ≠ 1 := by
  decide

/-- C5 amended: the Chain Builder reacts to the redirect-input-heredoc stop
reason exactly as to sequence-chain (`;`) — the current chain is closed and
the linking state resets — and it does not enter redirection-target mode
(`getFd` is untouched). -/
theorem c5_heredoc_is_seq_chain :
    (∀ acc : BuildAcc, applySwitch SR_REDIRECT_IN_HERE acc = applySwitch SR_SEQ_CHAIN acc) ∧
    (∀ acc : BuildAcc, (applySwitch SR_REDIRECT_IN_HERE acc).getFd = acc.getFd) := by
  exact ⟨fun _ => rfl, fun _ => rfl⟩

/-! ## Claim C8 — backslash escaping outside quotes (C lines 139-141, 219-222) -/

/-- C8: an unquoted, unescaped backslash is not copied; the immediately
following character — whatever it is — is appended literally to the current
argument and triggers no whitespace/control/quote handling, after which
exactly the two characters are consumed and the escape flag is clear.  The
second conjunct runs the whole Lexer on `\c` followed by a newline: the one
argument is the literal `c` with the backslash gone. -/
theorem c8_backslash_escapes_literally :
    (∀ (ch : Char) (rest : List Char) (st : LexSt) (p : Nat) (args : List (List Char)),
      st.skipMode = false → st.escaped = false → st.quoted = false →
      lexGo ('\\' :: ch :: rest) st p args =
        lexGo rest {st with escaped := false, cur := st.cur ++ [ch]} (p + 2) args) ∧
    (∀ ch : Char, processArgs ['\\', ch, '\n'] = ⟨4, [[ch]], SR_DONE⟩) := by
  constructor
  · intro ch rest st p args h1 h2 h3
    obtain ⟨sm, esc, qu, qc, cur⟩ := st
    simp only at h1 h2 h3
    subst h1; subst h2; subst h3
    simp [lexGo, lexStep]
  · intro ch
    simp [processArgs, lexGo, lexStep, initSt, isWs, isCtrl]

/-! ## Claim C10 — backslash escaping inside quotes

C line 139 tests only `escaped`, not `quoted`, so a backslash inside a quoted
region still escapes the next character rather than being copied. -/

/-- C10: inside a quoted region an unescaped backslash is not copied into the
argument and forces the following character (even the closing quote
character) to be copied literally.  The second conjunct runs the whole Lexer
on a quoted escaped character for both quote kinds. -/
theorem c10_backslash_escapes_inside_quotes :
    (∀ (ch : Char) (rest : List Char) (st : LexSt) (p : Nat) (args : List (List Char)),
      st.skipMode = false → st.escaped = false → st.quoted = true →
      lexGo ('\\' :: ch :: rest) st p args =
        lexGo rest {st with escaped := false, cur := st.cur ++ [ch]} (p + 2) args) ∧
    (∀ ch : Char,
      processArgs ['\'', '\\', ch, '\'', '\n'] = ⟨6, [[ch]], SR_DONE⟩ ∧
      processArgs ['"', '\\', ch, '"', '\n'] = ⟨6, [[ch]], SR_DONE⟩) := by
  constructor
  · intro ch rest st p args h1 h2 h3
    obtain ⟨sm, esc, qu, qc, cur⟩ := st
    simp only at h1 h2 h3
    subst h1; subst h2; subst h3
    simp [lexGo, lexStep]
  · intro ch
    constructor <;> simp [processArgs, lexGo, lexStep, initSt, isWs, isCtrl]

/-- Witness for C8 at the concrete escaped character `;`. -/
theorem c8_backslash_witness :
    lexGo ['\\', ';'] initSt 0 [] =
      lexGo [] {initSt with escaped := false, cur := [';']} 2 [] ∧
    processArgs ['\\', ';', '\n'] = ⟨4, [[';']], SR_DONE⟩ :=
  ⟨c8_backslash_escapes_literally.1 ';' [] initSt 0 [] rfl rfl rfl,
   c8_backslash_escapes_literally.2 ';'⟩

/-- Witness for C10 at the concrete escaped character `'` inside a
single-quoted region (the escaped quote does not close the region). -/
theorem c10_backslash_witness :
    lexGo ['\\', '\''] ⟨false, false, true, '\'', []⟩ 1 [] =
      lexGo [] ⟨false, false, true, '\'', ['\'']⟩ 3 [] ∧
    processArgs ['\'', '\\', '\'', '\'', '\n'] = ⟨6, [['\'']], SR_DONE⟩ :=
  ⟨c10_backslash_escapes_inside_quotes.1 '\'' [] ⟨false, false, true, '\'', []⟩ 1 [] rfl rfl rfl,
   (c10_backslash_escapes_inside_quotes.2 '\'').1⟩

/-! ## Helper lemmas on the Lexer for claims C6 and C7 -/

lemma ws_not_ctrl {c : Char} (h : isWs c) : ¬ isCtrl c := by
  rcases h with h | h | h <;> subst h <;> decide

lemma ws_not_backslash {c : Char} (h : isWs c) : c ≠ '\\' := by
  rcases h with h | h | h <;> subst h <;> decide

lemma ws_not_quote {c : Char} (h : isWs c) : ¬ (c = '\'' ∨ c = '"') := by
  rcases h with h | h | h <;> subst h <;> decide

/-- Leading whitespace before any argument characters is skipped one character
at a time by the main loop (C lines 154, 224-225). -/
lemma lexGo_leading_ws :
    ∀ (lead : List Char), (∀ c ∈ lead, isWs c) → ∀ (rest : List Char) (p : Nat)
      (args : List (List Char)),
    lexGo (lead ++ rest) initSt p args = lexGo rest initSt (p + lead.length) args := by
  intro lead
  induction lead with
  | nil => intro _ rest p args; simp
  | cons c cs ih =>
    intro h rest p args
    have hc : isWs c := h c (by simp)
    have h1 : lexStep c (cs ++ rest).head? ⟨false, false, false, nulChar, []⟩ args =
        .cont ⟨false, false, false, nulChar, []⟩ args := by
      simp [lexStep, ws_not_backslash hc, ws_not_quote hc, ws_not_ctrl hc, hc]
    have h2 : (p + 1) + cs.length = p + (c :: cs).length := by simp; omega
    calc lexGo (c :: (cs ++ rest)) initSt p args
        = lexGo (cs ++ rest) initSt (p + 1) args := by
          simp only [lexGo, initSt]
          rw [h1]
          simp
      _ = lexGo rest initSt (p + (c :: cs).length) args := by
          rw [ih (fun x hx => h x (by simp [hx])) rest (p + 1) args, h2]

/-- A control character encountered with no pending argument characters makes
the Lexer stop with `SR_ERROR`, consuming up through that character
(C lines 213-216, 228). -/
lemma processArgs_leading_ctrl_error :
    ∀ (lead : List Char), (∀ c ∈ lead, isWs c) → ∀ (ct : Char), isCtrl ct →
      ∀ (rest : List Char),
    processArgs (lead ++ ct :: rest) = ⟨lead.length + 1, [], SR_ERROR⟩ := by
  intro lead hl ct hc rest
  unfold processArgs
  rw [lexGo_leading_ws lead hl (ct :: rest) 0 []]
  rcases hc with h | h | h | h | h <;> subst h <;>
    simp [lexGo, lexStep, initSt, isWs, isCtrl]

/-- List arithmetic: resuming one past a marker character. -/
lemma drop_past_marker {α : Type} :
    ∀ (lead : List α) (ct : α) (rest : List α),
    (lead ++ ct :: rest).drop (lead.length + 1) = rest := by
  intro lead ct rest
  induction lead with
  | nil => simp
  | cons c cs ih => simp only [List.cons_append, List.length_cons, List.drop_succ_cons]; exact ih

/-! ## Claim C6 — leading control character is a parse error -/

/-- C6: a control character with no preceding argument characters since the
last separator makes the Lexer call stop with `SR_ERROR`, consuming up through
that character; the Chain Builder then reports the error, creates no command
node (its state is unchanged), and resumes scanning right after the consumed
characters, so subsequent segments on the line are processed normally. -/
theorem c6_leading_ctrl_parse_error :
    (∀ (lead : List Char), (∀ c ∈ lead, isWs c) → ∀ (ct : Char), isCtrl ct →
      ∀ (rest : List Char),
      processArgs (lead ++ ct :: rest) = ⟨lead.length + 1, [], SR_ERROR⟩) ∧
    (∀ (openF : List Char → OpenMode → Int) (lead : List Char), (∀ c ∈ lead, isWs c) →
      ∀ (ct : Char), isCtrl ct → ∀ (rest : List Char) (acc : BuildAcc),
      acc.getFd = none → acc.continueLast = false →
      buildStep openF (lead ++ ct :: rest) acc = .next rest acc) := by
  refine ⟨processArgs_leading_ctrl_error, ?_⟩
  intro openF lead hl ct hct rest acc hfd hcl
  simp only [buildStep, hfd]
  rw [processArgs_leading_ctrl_error lead hl ct hct rest]
  simp [hcl, drop_past_marker, SR_ERROR, SR_DONE]

/-- Witness for C6: the line `;x` errors on the leading `;` and the builder
resumes at `x` with untouched state. -/
theorem c6_leading_ctrl_witness :
    processArgs [' ', ';', 'x'] = ⟨2, [], SR_ERROR⟩ ∧
    buildStep (fun _ _ => -1) [';', 'x', '\n'] initAcc = .next ['x', '\n'] initAcc :=
  ⟨c6_leading_ctrl_parse_error.1 [' '] (by decide) ';' (by decide) ['x'],
   c6_leading_ctrl_parse_error.2 (fun _ _ => -1) [] (by simp) ';' (by decide)
     ['x', '\n'] initAcc rfl rfl⟩

/-! ## Claim C7 — quoted arguments -/

/-- Characters inside a quoted region that are neither a quote character nor a
backslash are copied literally, one per input character (C lines 219-222 via
the disabled special-character branches). -/
lemma lexGo_quoted_copy :
    ∀ (content : List Char), (∀ c ∈ content, c ≠ '\'' ∧ c ≠ '"' ∧ c ≠ '\\') →
    ∀ (rest : List Char) (q : Char) (cur : List Char) (p : Nat) (args : List (List Char)),
    lexGo (content ++ rest) ⟨false, false, true, q, cur⟩ p args =
      lexGo rest ⟨false, false, true, q, cur ++ content⟩ (p + content.length) args := by
  intro content
  induction content with
  | nil => intro _ rest q cur p args; simp
  | cons c cs ih =>
    intro h rest q cur p args
    obtain ⟨h1, h2, h3⟩ := h c (by simp)
    have hstep : lexStep c (cs ++ rest).head? ⟨false, false, true, q, cur⟩ args =
        .cont ⟨false, false, true, q, cur ++ [c]⟩ args := by
      simp [lexStep, h1, h2, h3]
    have harith : (p + 1) + cs.length = p + (c :: cs).length := by simp; omega
    calc lexGo (c :: (cs ++ rest)) ⟨false, false, true, q, cur⟩ p args
        = lexGo (cs ++ rest) ⟨false, false, true, q, cur ++ [c]⟩ (p + 1) args := by
          simp only [lexGo]
          rw [hstep]
          simp
      _ = lexGo rest ⟨false, false, true, q, (cur ++ [c]) ++ cs⟩ ((p + 1) + cs.length) args :=
          ih (fun x hx => h x (by simp [hx])) rest q (cur ++ [c]) (p + 1) args
      _ = lexGo rest ⟨false, false, true, q, cur ++ c :: cs⟩ (p + (c :: cs).length) args := by
          rw [harith]
          simp

/-- C7 counterexample: the double-quoted text `"a'b"` is *not* recovered as
the single argument `a'b`.  At end of input the pending argument is discarded
entirely (no argument is produced), and with a terminating newline the inner
single quote has been dropped, yielding `ab`. -/
theorem c7_quoted_counterexample :
    processArgs ['"', 'a', '\'', 'b', '"'] = ⟨6, [], SR_DONE⟩ ∧
    processArgs ['"', 'a', '\'', 'b', '"', '\n'] = ⟨7, [['a', 'b']], SR_DONE⟩ ∧
    (['a', 'b'] : List Char) ≠ ['a', '\'', 'b'] := by
  decide

/-- C7 amended: text wrapped in matching unescaped quotes, whose content is
nonempty and contains no quote character and no backslash, and which is
followed by a terminating newline, is yielded as exactly one argument equal to
the content with the quote markers stripped — whitespace and control
characters inside the region included. -/
theorem c7_quoted_argument_amended :
    ∀ (q : Char), q = '\'' ∨ q = '"' → ∀ (content : List Char), content ≠ [] →
    (∀ c ∈ content, c ≠ '\'' ∧ c ≠ '"' ∧ c ≠ '\\') →
    processArgs (q :: (content ++ [q, '\n'])) = ⟨content.length + 4, [content], SR_DONE⟩ := by
  intro q hq content hne hc
  have step1 : processArgs (q :: (content ++ [q, '\n'])) =
      lexGo (content ++ [q, '\n']) ⟨false, false, true, q, []⟩ 1 [] := by
    rcases hq with h | h <;> subst h <;> simp [processArgs, lexGo, lexStep, initSt]
  rw [step1, lexGo_quoted_copy content hc [q, '\n'] q [] 1 []]
  have step2 : lexGo [q, '\n'] ⟨false, false, true, q, [] ++ content⟩ (1 + content.length) [] =
      ⟨1 + content.length + 1 + 1 + 1, [content], SR_DONE⟩ := by
    rcases hq with h | h <;> subst h <;>
      simp [lexGo, lexStep, hne, isWs, isCtrl]
  rw [step2]
  simp [SR_DONE]
  omega

/-- Witness for C7 (amended) at the single-quoted content `x y` containing a
space: one literal argument `x y`. -/
theorem c7_quoted_argument_witness :
    processArgs ['\'', 'x', ' ', 'y', '\'', '\n'] = ⟨7, [['x', ' ', 'y']], SR_DONE⟩ :=
  c7_quoted_argument_amended '\'' (Or.inl rfl) ['x', ' ', 'y'] (by decide) (by decide)

/-! ## Claim C4 — failed redirections

On a lexer error or wrong argument count the builder `continue`s (C line 265)
without clearing `getFd`; on a failed `open` it has already stored the
negative return through `*getFd` (C line 272) and again `continue`s (C line
275) without clearing `getFd`.  So the descriptor does not keep its default
after a failed open, and redirection-target mode persists into the next
segment in both cases. -/

/-- C4 counterexample: on `a < b` with every `open` failing, the node's
`input_source` ends up as the failed open's return value -1 (not the default
standard input 0), and because the builder never left redirection-target mode
the `SR_DONE` that should have closed the chain is swallowed: the chain stays
unclosed (`closed = []`). -/
theorem c4_redirect_failure_counterexample :
    buildCommandChains (fun _ _ => -1) ['a', ' ', '<', ' ', 'b', '\n'] =
      ⟨[], [⟨[['a']], -1, 1, false, false, false, false⟩], 1⟩ ∧
    ((-1 : Int) = 0) = False := by
  refine ⟨by decide, by simp⟩

/-- C4 amended: when a redirection fails the builder stays in
redirection-target mode.  On a lexer parse error or an argument count other
than one, the state is completely unchanged (descriptor untouched, `getFd`
still set) and the next segment is consumed as another filename attempt; on a
failed open, the affected descriptor is set to the open call's negative
return value — not kept at its default — and `getFd` likewise stays set. -/
theorem c4_redirect_failure_amended :
    (∀ (openF : List Char → OpenMode → Int) (rem : List Char) (acc : BuildAcc) (g : GetFdT),
      acc.getFd = some g →
      ((processArgs rem).stop = SR_ERROR ∨ (processArgs rem).args.length ≠ 1) →
      (processArgs rem).stop ≠ SR_DONE →
      buildStep openF rem acc = .next (rem.drop (processArgs rem).processed) acc) ∧
    (∀ (openF : List Char → OpenMode → Int) (rem : List Char) (acc : BuildAcc)
       (g : GetFdT) (f : List Char),
      acc.getFd = some g →
      (processArgs rem).stop ≠ SR_ERROR → (processArgs rem).args = [f] →
      openF f g.oflags < 0 →
      (processArgs rem).stop ≠ SR_DONE →
      buildStep openF rem acc =
        .next (rem.drop (processArgs rem).processed)
          {acc with cur := acc.cur.modifyHead (setFd g (openF f g.oflags))}) := by
  constructor
  · intro openF rem acc g hfd herr hdone
    simp only [buildStep, hfd]
    rw [if_pos herr, if_neg hdone]
  · intro openF rem acc g f hfd herr hargs hopen hdone
    have hlen : ¬((processArgs rem).stop = SR_ERROR ∨ (processArgs rem).args.length ≠ 1) := by
      simp [herr, hargs]
    simp only [buildStep, hfd]
    rw [if_neg hlen, hargs]
    simp only [List.headD_cons]
    rw [if_pos hopen, if_neg hdone]

/-- Witness for C4 (amended): a parse-error filename segment (`;`) leaves the
state — including the pending redirection — untouched, and a good filename
whose open fails writes -1 into the node's input descriptor while the
redirection stays pending. -/
theorem c4_redirect_failure_witness :
    buildStep (fun _ _ => -1) [';']
      ⟨[], [⟨[['a']], 0, 1, false, false, false, false⟩], false, some ⟨true, .rdonly⟩, false, 1⟩ =
      .next []
        ⟨[], [⟨[['a']], 0, 1, false, false, false, false⟩], false, some ⟨true, .rdonly⟩, false, 1⟩ ∧
    buildStep (fun _ _ => -1) ['f', ' ', ';']
      ⟨[], [⟨[['a']], 0, 1, false, false, false, false⟩], false, some ⟨true, .rdonly⟩, false, 1⟩ =
      .next []
        ⟨[], [⟨[['a']], -1, 1, false, false, false, false⟩], false, some ⟨true, .rdonly⟩, false, 1⟩ :=
  ⟨c4_redirect_failure_amended.1 (fun _ _ => -1) [';'] _ ⟨true, .rdonly⟩ rfl
      (by decide) (by decide),
   c4_redirect_failure_amended.2 (fun _ _ => -1) ['f', ' ', ';'] _ ⟨true, .rdonly⟩ [['f']].head!
      rfl (by decide) (by decide) (by decide) (by decide)⟩

/-! ## Lemmas about chain well-formedness -/

lemma ndp_tail {c : Command} {rest : List Command}
    (h : noDanglingPipe (c :: rest) = true) : noDanglingPipe rest = true := by
  cases rest with
  | nil => rfl
  | cons d ds =>
    rw [noDanglingPipe] at h ⊢
    rwa [List.getLast?_cons_cons] at h

lemma ndp_reverse (l : List Command) : noDanglingPipe l.reverse = headOkB l := by
  cases l with
  | nil => rfl
  | cons c cs =>
    rw [noDanglingPipe, List.reverse_cons, List.getLast?_concat]
    rfl

lemma skipPiped_length (l : List Command) :
    (skipPiped l).1 + (skipPiped l).2.length = l.length := by
  induction l with
  | nil => rfl
  | cons c cs ih => cases hc : c.piped <;> (simp [skipPiped, hc]; try omega)

lemma skipPiped_ndp (l : List Command) (h : noDanglingPipe l = true) :
    noDanglingPipe (skipPiped l).2 = true := by
  induction l with
  | nil => exact h
  | cons c cs ih =>
    cases hc : c.piped
    · simpa [skipPiped, hc] using h
    · simp only [skipPiped, hc, if_pos]
      exact ih (ndp_tail h)

lemma skipPiped_ne_nil (l : List Command) (h : noDanglingPipe l = true) (hne : l ≠ []) :
    (skipPiped l).2 ≠ [] := by
  induction l with
  | nil => exact absurd rfl hne
  | cons c cs ih =>
    cases hc : c.piped
    · simp [skipPiped, hc]
    · cases cs with
      | nil =>
        rw [noDanglingPipe] at h
        simp [hc] at h
      | cons d ds =>
        simp only [skipPiped, hc, if_pos]
        exact ih (ndp_tail h) (by simp)

/-- Step equation: an already short-circuited node is only counted. -/
lemma execChainGo_stopped (exec : Command → Int) (fuel : Nat) (c : Command)
    (rest : List Command) (s : Int) (n : Nat) (ex : List Command) :
    execChainGo exec (fuel + 1) (c :: rest) true s n ex =
      execChainGo exec fuel rest true s (n + 1) ex := by
  simp [execChainGo]

/-- Step equation: a non-piped node is run and its flags applied. -/
lemma execChainGo_single (exec : Command → Int) (fuel : Nat) (c : Command)
    (rest : List Command) (s : Int) (n : Nat) (ex : List Command)
    (hp : c.piped = false) :
    execChainGo exec (fuel + 1) (c :: rest) false s n ex =
      execChainGo exec fuel rest (applyFlags c (exec c) s).2 (applyFlags c (exec c) s).1
        (n + 1) (c :: ex) := by
  simp [execChainGo, hp]

/-- Step equation: a piped node delegates the whole pipeline, then the walk
advances past every piped node plus the final stage `d`. -/
lemma execChainGo_piped (exec : Command → Int) (fuel : Nat) (c : Command)
    (rest : List Command) (s : Int) (n : Nat) (ex : List Command)
    (d : Command) (rest' : List Command)
    (hp : c.piped = true) (hd : (skipPiped (c :: rest)).2 = d :: rest') :
    execChainGo exec (fuel + 1) (c :: rest) false s n ex =
      execChainGo exec fuel rest' (applyFlags d (execPiped exec c rest).1 s).2
        (applyFlags d (execPiped exec c rest).1 s).1 (n + (skipPiped (c :: rest)).1 + 1)
        ((execPiped exec c rest).2.reverse ++ ex) := by
  simp [execChainGo, hp, hd]

/-- For a chain whose last node is not piped, the Chain Executor's traversal
count is exactly the number of nodes, whether or not execution was
short-circuited. -/
lemma execChainGo_count (exec : Command → Int) :
    ∀ (fuel : Nat) (chain : List Command) (stopped : Bool) (s : Int) (n : Nat)
      (ex : List Command),
    chain.length ≤ fuel → noDanglingPipe chain = true →
    (execChainGo exec fuel chain stopped s n ex).count = n + chain.length := by
  intro fuel
  induction fuel with
  | zero =>
    intro chain stopped s n ex hlen _
    have hnil : chain = [] := List.eq_nil_of_length_eq_zero (Nat.le_zero.mp hlen)
    subst hnil; rfl
  | succ fuel ih =>
    intro chain stopped s n ex hlen hndp
    cases chain with
    | nil => rfl
    | cons c rest =>
      have hlen1 : rest.length ≤ fuel := by simp at hlen; omega
      cases stopped
      · -- not yet short-circuited
        cases hp : c.piped
        · rw [execChainGo_single exec fuel c rest s n ex hp,
              ih rest _ _ _ _ hlen1 (ndp_tail hndp)]
          simp; omega
        · have h2 := skipPiped_ne_nil (c :: rest) hndp (by simp)
          obtain ⟨d, rest', hd⟩ : ∃ d rest', (skipPiped (c :: rest)).2 = d :: rest' := by
            cases hsk : (skipPiped (c :: rest)).2 with
            | nil => exact absurd hsk h2
            | cons d rest' => exact ⟨d, rest', rfl⟩
          have hlen2 := skipPiped_length (c :: rest)
          have hone : 1 ≤ (skipPiped (c :: rest)).1 := by simp [skipPiped, hp]
          have hlen3 : (skipPiped (c :: rest)).2.length = rest'.length + 1 := by
            rw [hd]; rfl
          have hndp' : noDanglingPipe rest' = true := ndp_tail (hd ▸ skipPiped_ndp _ hndp)
          rw [execChainGo_piped exec fuel c rest s n ex d rest' hp hd,
              ih rest' _ _ _ _ (by simp at hlen2 hlen; omega) hndp']
          simp at hlen2 ⊢
          omega
      · rw [execChainGo_stopped exec fuel c rest s n ex,
            ih rest _ _ _ _ hlen1 (ndp_tail hndp)]
        simp; omega

/-! ## Builder invariant: closed chains never end in a piped node -/

lemma setFd_piped (g : GetFdT) (fd : Int) (c : Command) : (setFd g fd c).piped = c.piped := by
  unfold setFd; split <;> rfl

lemma headOkB_modifyHead (f : Command → Command) (hf : ∀ c, (f c).piped = c.piped)
    (l : List Command) : headOkB (l.modifyHead f) = headOkB l := by
  cases l with
  | nil => rfl
  | cons c cs => simp [headOkB, hf]

/-- The final `.exit`/`.next` dispatch shared by all non-continue paths of the
builder's loop body preserves the invariant. -/
lemma exit_or_next_inv (rem' : List Char) (acc2 : BuildAcc) (stp : Nat) (h : InvP acc2) :
    (∀ o, (if stp = SR_DONE then BStep.exit (outOf acc2) else BStep.next rem' acc2) = .exit o →
      ∀ ch ∈ o.closed, noDanglingPipe ch = true) ∧
    (∀ r a, (if stp = SR_DONE then BStep.exit (outOf acc2) else BStep.next rem' acc2) = .next r a →
      InvP a) := by
  by_cases hd : stp = SR_DONE
  · rw [if_pos hd]
    refine ⟨fun o ho => ?_, fun r a ha => by simp at ha⟩
    injection ho with ho
    subst ho
    exact h.1
  · rw [if_neg hd]
    refine ⟨fun o ho => by simp at ho, fun r a ha => ?_⟩
    injection ha with _ ha
    subst ha
    exact h

/-- The switch of C lines 315-356 preserves the invariant, provided it is
reached with no pending redirection, no pending continuation, and a non-piped
current node — which is how every call site reaches it. -/
lemma applySwitch_inv (stop : Nat) (acc : BuildAcc)
    (hfd : acc.getFd = none) (hcl : acc.continueLast = false)
    (hclosed : ∀ ch ∈ acc.closed, noDanglingPipe ch = true)
    (hhead : headOkB acc.cur = true) :
    InvP (applySwitch stop acc) := by
  unfold applySwitch
  split_ifs with h1 h2 h3 h4 h5 h6 h7
  · exact ⟨hclosed, fun h => by simp [hfd, hcl] at h, fun _ => hcl⟩
  · exact ⟨hclosed, fun h => by simp [hfd, hcl] at h, fun _ => hcl⟩
  · exact ⟨hclosed, fun h => by simp [hfd, hcl] at h, fun _ => hcl⟩
  · exact ⟨hclosed, fun _ => hhead, fun _ => hcl⟩
  · exact ⟨hclosed, fun _ => hhead, fun _ => hcl⟩
  · exact ⟨hclosed, fun _ => hhead, fun _ => hcl⟩
  · refine ⟨hclosed, fun _ => ?_, fun h => by simp [hfd] at h⟩
    show headOkB (acc.cur.modifyHead fun c => {c with background := true}) = true
    rw [headOkB_modifyHead (fun c => {c with background := true}) (fun c => rfl)]
    exact hhead
  · refine ⟨?_, fun _ => rfl, fun _ => hcl⟩
    intro ch hch
    rcases List.mem_append.mp hch with hin | hin
    · exact hclosed ch hin
    · rw [List.mem_singleton.mp hin, ndp_reverse]
      exact hhead

/-- One iteration of the builder's loop preserves the invariant, and when the
loop exits all chains in the output are well formed. -/
lemma buildStep_inv (openF : List Char → OpenMode → Int) (rem : List Char) (acc : BuildAcc)
    (h : InvP acc) :
    (∀ o, buildStep openF rem acc = .exit o → ∀ ch ∈ o.closed, noDanglingPipe ch = true) ∧
    (∀ rem' acc', buildStep openF rem acc = .next rem' acc' → InvP acc') := by
  obtain ⟨hclosed, hhead, hcl3⟩ := h
  cases hfd : acc.getFd with
  | some g =>
    have hcl : acc.continueLast = false := hcl3 (by simp [hfd])
    have hh : headOkB acc.cur = true := hhead (Or.inl (by simp [hfd]))
    simp only [buildStep, hfd]
    by_cases h1 : (processArgs rem).stop = SR_ERROR ∨ (processArgs rem).args.length ≠ 1
    · rw [if_pos h1]
      exact exit_or_next_inv _ acc _ ⟨hclosed, hhead, hcl3⟩
    · rw [if_neg h1]
      by_cases h2 : openF ((processArgs rem).args.headD []) g.oflags < 0
      · rw [if_pos h2]
        refine exit_or_next_inv _ _ _ ⟨hclosed, fun _ => ?_, fun _ => hcl⟩
        show headOkB (acc.cur.modifyHead (setFd g _)) = true
        rw [headOkB_modifyHead _ (setFd_piped g _)]
        exact hh
      · rw [if_neg h2]
        refine exit_or_next_inv _ _ _ (applySwitch_inv _ _ rfl hcl hclosed ?_)
        show headOkB (acc.cur.modifyHead (setFd g _)) = true
        rw [headOkB_modifyHead _ (setFd_piped g _)]
        exact hh
  | none =>
    simp only [buildStep, hfd]
    by_cases h1 : (processArgs rem).stop = SR_ERROR ∧ acc.continueLast = false
    · rw [if_pos h1]
      refine ⟨fun o ho => by simp at ho, fun r a ha => ?_⟩
      injection ha with _ ha
      subst ha
      exact ⟨hclosed, hhead, hcl3⟩
    · rw [if_neg h1]
      by_cases h2 : (processArgs rem).args = [] ∧ acc.continueLast = false
      · rw [if_pos h2]
        exact exit_or_next_inv _ acc _ ⟨hclosed, hhead, hcl3⟩
      · rw [if_neg h2]
        by_cases h3 : acc.continueLast = false
        · rw [if_pos h3]
          exact exit_or_next_inv _ _ _ (applySwitch_inv _ _ rfl rfl hclosed rfl)
        · rw [if_neg h3]
          have hclT : acc.continueLast = true := by
            cases hb : acc.continueLast
            · exact absurd hb h3
            · rfl
          exact exit_or_next_inv _ _ _
            (applySwitch_inv _ _ hfd rfl hclosed (hhead (Or.inr hclT)))

/-- The whole builder loop: starting from an invariant state, every chain in
the output's `closed` list ends in a non-piped node. -/
lemma buildGo_inv (openF : List Char → OpenMode → Int) :
    ∀ (fuel : Nat) (rem : List Char) (acc : BuildAcc), InvP acc →
    ∀ ch ∈ (buildGo openF fuel rem acc).closed, noDanglingPipe ch = true := by
  intro fuel
  induction fuel with
  | zero => intro rem acc h; exact h.1
  | succ fuel ih =>
    intro rem acc h
    cases hstep : buildStep openF rem acc with
    | exit o =>
      have : buildGo openF (fuel + 1) rem acc = o := by
        simp [buildGo, hstep]
      rw [this]
      exact (buildStep_inv openF rem acc h).1 o hstep
    | next rem' acc' =>
      have : buildGo openF (fuel + 1) rem acc = buildGo openF fuel rem' acc' := by
        simp [buildGo, hstep]
      rw [this]
      exact ih rem' acc' ((buildStep_inv openF rem acc h).2 rem' acc' hstep)

/-- Every chain counted by `buildCommandChains` ends in a non-piped node. -/
lemma buildCommandChains_closed_ndp (openF : List Char → OpenMode → Int) (input : List Char) :
    ∀ ch ∈ (buildCommandChains openF input).closed, noDanglingPipe ch = true :=
  buildGo_inv openF (input.length + 1) input initAcc
    ⟨fun _ h => absurd h (List.not_mem_nil _), fun h => by simp [initAcc] at h,
     fun h => by simp [initAcc] at h⟩

/-! ## Claim C9 — piped nodes and their successors -/

/-- C9 counterexample: the line `a |` (trailing pipe) makes the builder create
a node with `piped = true` whose `next` is null — it is the last (and only)
node of the never-closed chain, so the claim fails exactly on the trailing-`|`
lines it explicitly includes. -/
theorem c9_trailing_pipe_counterexample :
    (buildCommandChains (fun _ _ => -1) ['a', ' ', '|']).dangling =
      [⟨[['a']], 0, 1, true, false, true, false⟩] ∧
    noDanglingPipe (buildCommandChains (fun _ _ => -1) ['a', ' ', '|']).dangling = false ∧
    (buildCommandChains (fun _ _ => -1) ['a', ' ', '|']).commandCount = 1 := by
  decide

/-- C9 amended: in every chain the builder closes (counts), each node with
`piped = true` has a non-null `next`; only a chain left unclosed at end of
input (e.g. after a trailing `|`) can end in a piped node, and such a chain is
never counted. -/
theorem c9_piped_has_next_in_closed_chains :
    ∀ (openF : List Char → OpenMode → Int) (input : List Char),
    (buildCommandChains openF input).closed.all noDanglingPipe = true := by
  intro openF input
  rw [List.all_eq_true]
  exact fun ch hch => buildCommandChains_closed_ndp openF input ch hch

/-! ## Claim C3 — node-count bookkeeping -/

lemma sum_map_congr {α : Type} (l : List α) (f g : α → Nat) (h : ∀ x ∈ l, f x = g x) :
    (l.map f).sum = (l.map g).sum := by
  induction l with
  | nil => rfl
  | cons a as ih =>
    simp only [List.map_cons, List.sum_cons, h a (by simp)]
    rw [ih (fun x hx => h x (by simp [hx]))]

/-- C3 counterexample: on the line `a |` one command node is built, but no
chain is ever closed (`chainCount = 0`), so the executor is never invoked and
the sum of reported commandCounts over all chains is 0, not 1. -/
theorem c3_sum_counterexample :
    ((buildCommandChains (fun _ _ => -1) ['a', ' ', '|']).closed.map
        (fun ch => (executeCommandChain (fun _ => 0) 0 ch).count)).sum = 0 ∧
    (buildCommandChains (fun _ _ => -1) ['a', ' ', '|']).commandCount = 1 ∧
    (0 : Nat) ≠ 1 := by
  decide

/-- C3 amended: for every input line, every per-node status oracle and every
initial accumulator value, the sum over the counted chains of the
commandCount reported by the Chain Executor equals the total number of
command nodes in those counted chains (nodes of an unclosed trailing chain
are built but belong to no counted chain and are never traversed). -/
theorem c3_traversal_counts_match :
    ∀ (openF : List Char → OpenMode → Int) (input : List Char)
      (exec : Command → Int) (allStatus0 : Int),
    ((buildCommandChains openF input).closed.map
        (fun ch => (executeCommandChain exec allStatus0 ch).count)).sum =
      ((buildCommandChains openF input).closed.map List.length).sum := by
  intro openF input exec allStatus0
  apply sum_map_congr
  intro ch hch
  have hndp := buildCommandChains_closed_ndp openF input ch hch
  unfold executeCommandChain
  rw [execChainGo_count exec (ch.length + 1) ch false allStatus0 0 [] (by omega) hndp]
  simp
